import Mathlib

/-!
Verification development for the whatsapp-h2h-otomax transaction tracking
and delivery-assurance subsystem.

The Go source is shallowly embedded: time.Time becomes Nat (nanosecond-like
ticks; only ordering and addition matter), the SQLite `transactions` table
becomes a list of `TransactionRecord` in insertion order, and external
collaborators (whatsmeow client, HTTP endpoint) become explicit oracles.
-/

namespace H2H

/-- Embeds `repository.TransactionRecord` (internal/repository, sqlite-backed):
columns id, trx_id, message_id, destination, destination_type, sent_at,
expires_at, created_at. -/
structure TransactionRecord where
  id : Nat
  trxId : String
  messageId : String
  destination : String
  destinationType : String
  sentAt : Nat
  expiresAt : Nat
  createdAt : Nat
deriving Repr, DecidableEq

/-- The `transactions` table, rows in insertion (rowid) order. -/
abbrev Store := List TransactionRecord

/-- Embeds `TransactionRepository.Save`: `INSERT INTO transactions (trx_id,
message_id, destination, destination_type, sent_at, expires_at) VALUES (...)`.
The schema declares `trx_id TEXT NOT NULL UNIQUE`, so the insert fails when
any physical row (expired or not) already holds the same trx_id. The db
assigns `id` (AUTOINCREMENT) and `created_at` (DEFAULT CURRENT_TIMESTAMP,
here the `dbNow` argument). -/
def save (db : Store) (r : TransactionRecord) (dbNow : Nat) : Except String Store :=
  if db.any (fun x => x.trxId == r.trxId) then
    Except.error "UNIQUE constraint failed: transactions.trx_id"
  else
    Except.ok (db ++ [{ r with id := db.length + 1, createdAt := dbNow }])

/-- The read-path activity predicate: the SQL condition `expires_at > now`
shared by GetByTrxID, GetByDestination and Count. -/
def activeAt (r : TransactionRecord) (now : Nat) : Bool :=
  decide (now < r.expiresAt)

/-- Embeds `TransactionRepository.GetByTrxID`: `SELECT ... FROM transactions
WHERE trx_id = ? AND expires_at > ? LIMIT 1` (first matching row), returning
nil (`none`) on no rows. -/
def getByTrxID (db : Store) (trxID : String) (now : Nat) : Option TransactionRecord :=
  db.find? (fun r => r.trxId == trxID && activeAt r now)

/-- Picks the row `ORDER BY sent_at DESC LIMIT 1` would return: the matching
row with maximal sent_at (first such row in table order on ties). -/
def maxBySentAt (rows : List TransactionRecord) : Option TransactionRecord :=
  rows.foldl
    (fun acc r =>
      match acc with
      | none => some r
      | some b => if b.sentAt < r.sentAt then some r else some b)
    none

/-- Embeds `TransactionRepository.GetByDestination`: `SELECT ... WHERE
destination = ? AND expires_at > ? ORDER BY sent_at DESC LIMIT 1`. -/
def getByDestination (db : Store) (destination : String) (now : Nat) :
    Option TransactionRecord :=
  maxBySentAt (db.filter (fun r => r.destination == destination && activeAt r now))

/-- Embeds `TransactionRepository.CleanupExpired`: `DELETE FROM transactions
WHERE expires_at <= ?`, returning the surviving table and RowsAffected. -/
def cleanupExpired (db : Store) (now : Nat) : Store × Nat :=
  (db.filter (fun r => !(decide (r.expiresAt ≤ now))),
   (db.filter (fun r => decide (r.expiresAt ≤ now))).length)

/-- Embeds `TransactionRepository.Count`: `SELECT COUNT(*) FROM transactions
WHERE expires_at > ?`. -/
def countActive (db : Store) (now : Nat) : Nat :=
  (db.filter (fun r => activeAt r now)).length

/-- Embeds `WhatsAppService.isWhitelisted`: linear scan over the configured
webhookWhitelist, exact string equality. -/
def isWhitelisted (whitelist : List String) (jid : String) : Bool :=
  whitelist.any (fun w => w == jid)

/-- The whitelist gate exactly as applied in `handleIncomingMessage`:
`if len(s.webhookWhitelist) > 0 { if !s.isWhitelisted(chatJID) { return } }` —
an address passes when the whitelist is empty or the address matches. -/
def whitelistAllows (whitelist : List String) (jid : String) : Bool :=
  if whitelist.length > 0 then isWhitelisted whitelist jid else true

instance {ε α : Type} [DecidableEq ε] [DecidableEq α] :
    DecidableEq (Except ε α) := fun a b =>
  match a, b with
  | Except.ok x, Except.ok y => decidable_of_iff (x = y) (by simp)
  | Except.error x, Except.error y => decidable_of_iff (x = y) (by simp)
  | Except.ok _, Except.error _ => isFalse (by simp)
  | Except.error _, Except.ok _ => isFalse (by simp)

/-- Embeds `model.TransactionRequest` (fields read by the handler and
ProcessTransaction). -/
structure TransactionRequest where
  destination : String
  trxId : String
  descriptions : String
  instructions : String
deriving Repr, DecidableEq

/-- Embeds `model.TransactionData`, the success payload of
ProcessTransaction. -/
structure TransactionData where
  trxId : String
  destination : String
  destinationType : String
  messageId : String
  timestamp : Nat
deriving Repr, DecidableEq

/-- The error cases of `TransactionService.ProcessTransaction`
(service/transaction, repository-backed version), each constructor carrying
exactly the data the Go code interpolates into the wrapped error:
`failed to check existing transaction: %w`; `duplicate transaction: TrxID
'%s' already exists and is still being tracked (sent at %s)` with req.TrxID
and existingTrx.SentAt; `invalid destination: %w`; `failed to send
message: %w`. -/
inductive ProcError where
  | storeReadFailure (msg : String)
  | duplicate (trxId : String) (sentAt : Nat)
  | invalidDestination (msg : String)
  | sendFailure (msg : String)
deriving Repr, DecidableEq

/-- Outcomes of the external collaborators of ProcessTransaction for one
call: whether the dedup read against sqlite errors, what
`ValidateDestination` returns (jid string and destination type), what
`SendMessage` returns (message id), the call time, and the configured TTL. -/
structure ProcEnv where
  readErr : Option String
  validate : String → Except String (String × String)
  send : Except String String
  now : Nat
  ttl : Nat

/-- Result of one ProcessTransaction call: the value returned to the caller,
the resulting table, and the list of sends attempted (jid, message text). -/
structure ProcOutcome where
  result : Except ProcError TransactionData
  db : Store
  sends : List (String × String)
deriving Repr

/-- Embeds `TransactionService.ProcessTransaction` (repository-backed
version): dedup check via GetByTrxID, ValidateDestination, message :=
req.Instructions, SendMessage, then Save of the new record; a Save error is
only logged and the call still returns the success payload. -/
def processTransaction (env : ProcEnv) (db : Store) (req : TransactionRequest) :
    ProcOutcome :=
  match env.readErr with
  | some m => ⟨Except.error (ProcError.storeReadFailure m), db, []⟩
  | none =>
    match getByTrxID db req.trxId env.now with
    | some existing =>
      ⟨Except.error (ProcError.duplicate req.trxId existing.sentAt), db, []⟩
    | none =>
      match env.validate req.destination with
      | Except.error m => ⟨Except.error (ProcError.invalidDestination m), db, []⟩
      | Except.ok (jid, destType) =>
        let message := req.instructions
        match env.send with
        | Except.error m =>
          ⟨Except.error (ProcError.sendFailure m), db, [(jid, message)]⟩
        | Except.ok messageId =>
          let record : TransactionRecord :=
            { id := 0, trxId := req.trxId, messageId := messageId,
              destination := jid, destinationType := destType,
              sentAt := env.now, expiresAt := env.now + env.ttl, createdAt := 0 }
          let data : TransactionData :=
            ⟨req.trxId, jid, destType, messageId, env.now⟩
          match save db record env.now with
          | Except.error _ => ⟨Except.ok data, db, [(jid, message)]⟩
          | Except.ok db2 => ⟨Except.ok data, db2, [(jid, message)]⟩

/-- Embeds the ContextInfo of an ExtendedTextMessage as read by
`handleIncomingMessage`: StanzaID and the quoted message's Conversation or
ExtendedTextMessage.Text, each possibly absent. -/
structure QuoteContext where
  stanzaId : Option String
  quotedConversation : Option String
  quotedExtendedText : Option String
deriving Repr, DecidableEq

/-- Embeds the ExtendedTextMessage fields read by `handleIncomingMessage`. -/
structure ExtendedTextMessage where
  text : String
  contextInfo : Option QuoteContext
deriving Repr, DecidableEq

/-- Embeds the fields of `events.Message` read by `handleIncomingMessage`. -/
structure MessageEvent where
  isFromMe : Bool
  chat : String
  senderUser : String
  pushName : String
  timestamp : Nat
  conversation : Option String
  extendedText : Option ExtendedTextMessage
deriving Repr, DecidableEq

/-- Embeds `model.Sender`. -/
structure Sender where
  phone : String
  name : String
deriving Repr, DecidableEq

/-- Embeds `model.MessageContent` (MediaURL is never set on this path and is
omitted). -/
structure MessageContent where
  type : String
  content : String
  timestamp : Nat
deriving Repr, DecidableEq

/-- Embeds `model.MessageContext`. -/
structure MessageContext where
  chatType : String
  isReply : Bool
  originalMessageId : String
  quotedMessageContent : String
deriving Repr, DecidableEq

/-- Embeds `model.WebhookPayload`. -/
structure WebhookPayload where
  event : String
  sender : Sender
  message : MessageContent
  context : MessageContext
deriving Repr, DecidableEq

/-- Embeds `WhatsAppService.handleIncomingMessage` up to the hand-off to
`OtomaxService.SendWebhook`: returns the payload and the trxID it is keyed
by, or `none` when the event is discarded (own message, whitelist rejection,
or no active tracking record for the chat). The repository is modelled as
always set. -/
def handleIncomingMessage (whitelist : List String) (db : Store) (now : Nat)
    (evt : MessageEvent) : Option (WebhookPayload × String) :=
  if evt.isFromMe then none
  else if whitelist.length > 0 && !(isWhitelisted whitelist evt.chat) then none
  else
    match getByDestination db evt.chat now with
    | none => none
    | some trackingRecord =>
      let messageContent :=
        match evt.conversation with
        | some c => c
        | none =>
          match evt.extendedText with
          | some ext => ext.text
          | none => ""
      let base : WebhookPayload :=
        { event := "message_received",
          sender := ⟨evt.senderUser, evt.pushName⟩,
          message := ⟨"text", messageContent, evt.timestamp⟩,
          context := ⟨trackingRecord.destinationType, false,
                      trackingRecord.messageId, ""⟩ }
      let payload :=
        match evt.extendedText with
        | some ext =>
          match ext.contextInfo with
          | some ci =>
            { base with context :=
              { base.context with
                isReply := true,
                originalMessageId :=
                  match ci.stanzaId with
                  | some sid => sid
                  | none => trackingRecord.messageId,
                quotedMessageContent :=
                  match ci.quotedConversation with
                  | some qc => qc
                  | none =>
                    match ci.quotedExtendedText with
                    | some qt => qt
                    | none => "" } }
          | none => base
        | none => base
      some (payload, trackingRecord.trxId)

/-- Result of `OtomaxService.SendWebhook`: delivered, or the final error
`webhook delivery failed after %d attempts: %w` carrying RetryCount+1 and
the last underlying error. -/
inductive WebhookResult where
  | delivered
  | deliveryFailed (attempts : Nat) (lastErr : Option String)
deriving Repr, DecidableEq

/-- The retry loop of `SendWebhook`: `attempt` is the current 0-based loop
index, `remaining` the number of loop iterations left (RetryCount+1 at the
top), `lastErr` the last failure. `outcome a` is what `s.send` returns on
0-based attempt `a` (`none` = 2xx success). Returns the loop result, the
sleeps performed as (1-based number of the attempt about to run, backoff
seconds), and the number of attempts performed. -/
def sendWebhookGo (outcome : Nat → Option String) :
    Nat → Nat → Option String → Except (Option String) Unit × List (Nat × Nat) × Nat
  | _, 0, lastErr => (Except.error lastErr, [], 0)
  | attempt, remaining + 1, _lastErr =>
    let sleeps : List (Nat × Nat) :=
      if attempt > 0 then [(attempt + 1, 2 ^ (attempt - 1))] else []
    match outcome attempt with
    | none => (Except.ok (), sleeps, 1)
    | some e =>
      let rest := sendWebhookGo outcome (attempt + 1) remaining (some e)
      (rest.1, sleeps ++ rest.2.1, rest.2.2 + 1)

/-- Embeds `OtomaxService.SendWebhook`: `for attempt := 0; attempt <=
s.config.RetryCount; attempt++`, sleeping `2^(attempt-1)` seconds before
every attempt with `attempt > 0`, returning on first success, else the
final wrapped error. -/
def sendWebhook (retryCount : Nat) (outcome : Nat → Option String) :
    WebhookResult × List (Nat × Nat) × Nat :=
  let r := sendWebhookGo outcome 0 (retryCount + 1) none
  (match r.1 with
   | Except.ok _ => WebhookResult.delivered
   | Except.error le => WebhookResult.deliveryFailed (retryCount + 1) le,
   r.2.1, r.2.2)

/-- Caller-visible outcome of one admit call in the concurrency model:
success (with whether its Save went through, only logged otherwise) or the
duplicate error. -/
inductive AdmitRes where
  | success (saved : Bool) (handle : String)
  | duplicate (sentAt : Nat)
deriving Repr, DecidableEq

/-- Control point of one in-flight ProcessTransaction call: before its dedup
read, after passing it (about to send and Save), or finished. -/
inductive ProcPhase where
  | ready
  | passedCheck
  | finished (r : AdmitRes)
deriving Repr, DecidableEq

/-- Shared state of two concurrent admit calls racing on one store. -/
structure RaceState where
  db : Store
  p1 : ProcPhase
  p2 : ProcPhase
deriving Repr, DecidableEq

/-- One atomic step of an in-flight admit call with the shared trxId: the
dedup read (GetByTrxID) and the send-plus-Save are the two store-touching
phases of ProcessTransaction; Save's UNIQUE constraint is atomic, and a Save
failure is only logged while the call still returns success. -/
def admitStep (trxId jid destType handle : String) (now ttl : Nat)
    (db : Store) (ph : ProcPhase) : Store × ProcPhase :=
  match ph with
  | ProcPhase.ready =>
    match getByTrxID db trxId now with
    | some existing =>
      (db, ProcPhase.finished (AdmitRes.duplicate existing.sentAt))
    | none => (db, ProcPhase.passedCheck)
  | ProcPhase.passedCheck =>
    let record : TransactionRecord :=
      ⟨0, trxId, handle, jid, destType, now, now + ttl, 0⟩
    match save db record now with
    | Except.ok db2 => (db2, ProcPhase.finished (AdmitRes.success true handle))
    | Except.error _ => (db, ProcPhase.finished (AdmitRes.success false handle))
  | ProcPhase.finished r => (db, ProcPhase.finished r)

/-- Scheduler step: `true` advances call 1 (message handle h1), `false`
advances call 2 (handle h2). -/
def raceStep (trxId jid destType h1 h2 : String) (now ttl : Nat)
    (s : RaceState) (which : Bool) : RaceState :=
  if which then
    let r := admitStep trxId jid destType h1 now ttl s.db s.p1
    { s with db := r.1, p1 := r.2 }
  else
    let r := admitStep trxId jid destType h2 now ttl s.db s.p2
    { s with db := r.1, p2 := r.2 }

/-- Runs a schedule (arbitrary interleaving) of the two concurrent admit
calls. -/
def raceExec (trxId jid destType h1 h2 : String) (now ttl : Nat)
    (sched : List Bool) (s : RaceState) : RaceState :=
  sched.foldl (raceStep trxId jid destType h1 h2 now ttl) s

/-- Number of physical rows for a trxId. -/
def recCount (trxId : String) (db : Store) : Nat :=
  (db.filter (fun r => r.trxId == trxId)).length

/-- The call finished with a successful Save. -/
def phaseSaved : ProcPhase → Bool
  | ProcPhase.finished (AdmitRes.success true _) => true
  | _ => false

/-- The call finished with success but its Save was rejected (logged only). -/
def phaseSuccessUnsaved : ProcPhase → Bool
  | ProcPhase.finished (AdmitRes.success false _) => true
  | _ => false

/-- The call finished with the duplicate error. -/
def phaseDup : ProcPhase → Bool
  | ProcPhase.finished (AdmitRes.duplicate _) => true
  | _ => false

/-- The call finished. -/
def phaseFinished : ProcPhase → Bool
  | ProcPhase.finished _ => true
  | _ => false

/-- Inductive invariant of the two-call race: the number of rows for the
trxId equals the number of calls that finished with a successful Save, never
exceeds one, and a call that finished with a duplicate error or a rejected
Save witnessed an existing row (rows are never deleted during the race). -/
def raceInv (trxId : String) (s : RaceState) : Prop :=
  recCount trxId s.db =
      (if phaseSaved s.p1 = true then 1 else 0) +
      (if phaseSaved s.p2 = true then 1 else 0) ∧
  recCount trxId s.db ≤ 1 ∧
  (phaseDup s.p1 = true ∨ phaseSuccessUnsaved s.p1 = true →
    1 ≤ recCount trxId s.db) ∧
  (phaseDup s.p2 = true ∨ phaseSuccessUnsaved s.p2 = true →
    1 ≤ recCount trxId s.db)

/-- Embeds `model.TrackingInfo`, the in-memory tracker's record
(service/transaction.go, MessageTracker version). -/
structure TrackingInfo where
  messageId : String
  trxId : String
  destination : String
  destinationType : String
  sentAt : Nat
  expiresAt : Nat
deriving Repr, DecidableEq

/-- Embeds `MessageTracker.GetByTrxID`: scan of the cache for an entry with
the trxID and `now.Before(info.ExpiresAt)`. -/
def trackerGetByTrxID (cache : List TrackingInfo) (trxID : String) (now : Nat) :
    Option TrackingInfo :=
  cache.find? (fun info => info.trxId == trxID && decide (now < info.expiresAt))

/-- What the `/api/v1/forward` handler does with a request: reject it with
an error code and HTTP status, or invoke the core ProcessTransaction with
the built request. -/
inductive ForwardOutcome where
  | rejected (code : String) (status : Nat)
  | toCore (req : TransactionRequest)
deriving Repr, DecidableEq

/-- Embeds `TransactionHandler.ForwardTransaction` up to the call into
`ProcessTransaction`: required-parameter check, 4096-byte length limits
(Go `len` is byte length), then the handler-level duplicate pre-check
against the message tracker. -/
def forwardTransaction (destination trxID descriptions instructions : String)
    (tracker : List TrackingInfo) (now : Nat) : ForwardOutcome :=
  if destination == "" || trxID == "" || descriptions == "" || instructions == "" then
    ForwardOutcome.rejected "ERR_MISSING_PARAMETER" 400
  else if decide (descriptions.utf8ByteSize > 4096) ||
          decide (instructions.utf8ByteSize > 4096) then
    ForwardOutcome.rejected "ERR_INVALID_PARAMETER" 400
  else
    match trackerGetByTrxID tracker trxID now with
    | some _ => ForwardOutcome.rejected "ERR_DUPLICATE_TRANSACTION" 409
    | none =>
      ForwardOutcome.toCore ⟨destination, trxID, descriptions, instructions⟩

/-- s begins with pat (character lists). -/
def leadsWith : List Char → List Char → Bool
  | _, [] => true
  | [], _ :: _ => false
  | a :: s, b :: p => a == b && leadsWith s p

/-- pat occurs as a contiguous substring of s (character lists). -/
def hasSub (s pat : List Char) : Bool :=
  match s with
  | [] => pat.isEmpty
  | _ :: t => leadsWith s pat || hasSub t pat

/-- `strings.Contains(destination, "@g.us")`. -/
def hasGUs (destination : String) : Bool :=
  hasSub destination.toList ['@', 'g', '.', 'u', 's']

/-- `regexp [^\d]` removal: keep only ASCII digits. -/
def digitsOf (s : List Char) : List Char :=
  s.filter Char.isDigit

/-- `strings.TrimLeft(phone, "0")`. -/
def dropZeros (s : List Char) : List Char :=
  s.dropWhile (fun c => c == '0')

/-- `strings.HasPrefix(phone, "62")`. -/
def leadsWith62 (s : List Char) : Bool :=
  match s with
  | '6' :: '2' :: _ => true
  | _ => false

/-- `if !strings.HasPrefix(phone, "62") { phone = "62" + phone }`. -/
def ensure62 (p : List Char) : List Char :=
  if leadsWith62 p then p else '6' :: '2' :: p

/-- The closing check of `normalizePhoneNumber`:
`if len(phone) < 11 || len(phone) > 15 { return "" }`. -/
def lengthGate (p : List Char) : List Char :=
  if p.length < 11 || p.length > 15 then [] else p

/-- Embeds `WhatsAppService.normalizePhoneNumber` on character lists:
strip non-digits, strip leading zeros, prepend 62 when absent, then the
11..15 length gate (empty result = rejected). -/
def normalizePhoneChars (s : List Char) : List Char :=
  lengthGate (ensure62 (dropZeros (digitsOf s)))

/-- Embeds `WhatsAppService.normalizePhoneNumber`. -/
def normalizePhoneNumber (phone : String) : String :=
  String.mk (normalizePhoneChars phone.toList)

/-- External collaborators of `ValidateDestination`: `types.ParseJID`
(canonical JID string or failure), `GetGroupInfo` success, and
`IsOnWhatsApp` (API failure, or whether the number is registered). -/
structure WAEnv where
  parseJID : String → Option String
  getGroupInfoOk : String → Bool
  isOnWhatsApp : String → Except String Bool

/-- Embeds `WhatsAppService.ValidateDestination`: group path when the
destination contains "@g.us", else the personal path through
normalizePhoneNumber, the registration check, and
`types.NewJID(phone, DefaultUserServer)` whose String() is
`phone + "@s.whatsapp.net"`. -/
def validateDestination (env : WAEnv) (destination : String) :
    Except String (String × String) :=
  if hasGUs destination then
    match env.parseJID destination with
    | none => Except.error "invalid group JID"
    | some jid =>
      if env.getGroupInfoOk jid then Except.ok (jid, "group")
      else Except.error "group not found or bot not a member"
  else
    let phone := normalizePhoneNumber destination
    if phone == "" then Except.error "invalid phone number format"
    else
      match env.isOnWhatsApp phone with
      | Except.error m => Except.error m
      | Except.ok false => Except.error "phone number not registered on WhatsApp"
      | Except.ok true => Except.ok (phone ++ "@s.whatsapp.net", "personal")

end H2H

namespace H2H

theorem find?_false_of_all_false {α} (p : α → Bool) (l : List α)
    (h : ∀ x ∈ l, p x = false) : l.find? p = none :=
  List.find?_eq_none.mpr (fun x hx => by simp [h x hx])

theorem find?_append_of_left_none {α} (p : α → Bool) (l l2 : List α)
    (h : l.find? p = none) : (l ++ l2).find? p = l2.find? p := by
  induction l with
  | nil => rfl
  | cons a t ih =>
    cases hpa : p a with
    | true => rw [List.find?_cons_of_pos _ hpa] at h; exact absurd h (by simp)
    | false =>
      rw [List.find?_cons_of_neg _ (by simp [hpa])] at h
      rw [List.cons_append, List.find?_cons_of_neg _ (by simp [hpa])]
      exact ih h

theorem getByTrxID_none_of_expired (db : Store) (trxID : String) (now : Nat)
    (h : ∀ r ∈ db, r.trxId = trxID → r.expiresAt ≤ now) :
    getByTrxID db trxID now = none := by
  apply find?_false_of_all_false
  intro r hr
  by_cases heq : r.trxId = trxID
  · have : ¬ now < r.expiresAt := Nat.not_lt.mpr (h r hr heq)
    simp [activeAt, heq, this]
  · simp [heq]

/-- Claim C1 (amended): an admit whose trxId has an active tracking record
fails with the duplicate error carrying the request's trxId and the existing
record's sentAt (the code does not put the existing messageHandle into the
error), leaves the store unchanged, and performs no send; this holds for any
request destination, because the dedup read is keyed purely by trxId. -/
theorem admit_duplicate_by_trxid (env : ProcEnv) (db : Store)
    (req : TransactionRequest) (existing : TransactionRecord)
    (hread : env.readErr = none)
    (hdup : getByTrxID db req.trxId env.now = some existing) :
    processTransaction env db req =
      ⟨Except.error (ProcError.duplicate req.trxId existing.sentAt), db, []⟩ := by
  unfold processTransaction
  rw [hread, hdup]

/-- Witness for C1 at the spec's scenario: a second admit of TRX1 to the
differing destination 628222 fails with the duplicate error carrying TRX1
and the stored sentAt, stores nothing, sends nothing. -/
theorem admit_duplicate_by_trxid_witness :
    processTransaction
        ⟨none, fun d => Except.ok (d, "personal"), Except.ok "M9", 10, 100⟩
        [⟨1, "TRX1", "M1", "628111@s.whatsapp.net", "personal", 5, 200, 5⟩]
        ⟨"628222", "TRX1", "d", "i"⟩ =
      ⟨Except.error (ProcError.duplicate "TRX1" 5),
       [⟨1, "TRX1", "M1", "628111@s.whatsapp.net", "personal", 5, 200, 5⟩],
       []⟩ :=
  admit_duplicate_by_trxid
    ⟨none, fun d => Except.ok (d, "personal"), Except.ok "M9", 10, 100⟩
    [⟨1, "TRX1", "M1", "628111@s.whatsapp.net", "personal", 5, 200, 5⟩]
    ⟨"628222", "TRX1", "d", "i"⟩
    ⟨1, "TRX1", "M1", "628111@s.whatsapp.net", "personal", 5, 200, 5⟩
    rfl (by decide)

/-- Claim C1 counterexample: the duplicate failure is byte-for-byte the same
whether the stored record's messageHandle is "M1" or "M2", so the error does
not carry the existing record's messageHandle. -/
theorem admit_duplicate_no_handle_cex :
    (("M1" : String) ≠ "M2") ∧
    (processTransaction
        ⟨none, fun d => Except.ok (d, "personal"), Except.ok "M9", 10, 100⟩
        [⟨1, "TRX1", "M1", "628111@s.whatsapp.net", "personal", 5, 200, 5⟩]
        ⟨"628222", "TRX1", "d", "i"⟩).result =
      (processTransaction
        ⟨none, fun d => Except.ok (d, "personal"), Except.ok "M9", 10, 100⟩
        [⟨1, "TRX1", "M2", "628111@s.whatsapp.net", "personal", 5, 200, 5⟩]
        ⟨"628222", "TRX1", "d", "i"⟩).result ∧
    (processTransaction
        ⟨none, fun d => Except.ok (d, "personal"), Except.ok "M9", 10, 100⟩
        [⟨1, "TRX1", "M1", "628111@s.whatsapp.net", "personal", 5, 200, 5⟩]
        ⟨"628222", "TRX1", "d", "i"⟩).result =
      Except.error (ProcError.duplicate "TRX1" 5) := by
  refine ⟨by decide, by decide, by decide⟩

/-- Claim C5: ProcessTransaction returns an error to the caller iff a
failure occurs before the send completes (dedup read failure, active
duplicate, destination validation, or the send itself); every error leaves
the store unchanged; after a successful send the call returns the success
payload, and in particular when the Save is rejected (here: a physical row
with the same trxId) the store stays unchanged yet success is still
returned. -/
theorem admit_error_policy (env : ProcEnv) (db : Store) (req : TransactionRequest) :
    ((∃ d, (processTransaction env db req).result = Except.ok d) ↔
      (env.readErr = none ∧ getByTrxID db req.trxId env.now = none ∧
       (∃ jt, env.validate req.destination = Except.ok jt) ∧
       (∃ m, env.send = Except.ok m))) ∧
    (∀ e, (processTransaction env db req).result = Except.error e →
      (processTransaction env db req).db = db) ∧
    (∀ jid destType messageId,
      env.readErr = none →
      getByTrxID db req.trxId env.now = none →
      env.validate req.destination = Except.ok (jid, destType) →
      env.send = Except.ok messageId →
      (processTransaction env db req).result =
        Except.ok ⟨req.trxId, jid, destType, messageId, env.now⟩ ∧
      (db.any (fun x => x.trxId == req.trxId) = true →
        (processTransaction env db req).db = db)) := by
  cases hre : env.readErr with
  | some m => simp [processTransaction, hre]
  | none =>
    cases hget : getByTrxID db req.trxId env.now with
    | some ex => simp [processTransaction, hre, hget]
    | none =>
      cases hval : env.validate req.destination with
      | error m => simp [processTransaction, hre, hget, hval]
      | ok jt =>
        obtain ⟨jid, destType⟩ := jt
        cases hsend : env.send with
        | error m => simp [processTransaction, hre, hget, hval, hsend]
        | ok mid =>
          cases hany : db.any (fun x => x.trxId == req.trxId) with
          | true => simp [processTransaction, save, hre, hget, hval, hsend, hany]
          | false => simp [processTransaction, save, hre, hget, hval, hsend, hany]

/-- Witness for C5: on a store whose only row for TRXW is expired, the
success path runs, the Save is rejected by the unique constraint, yet the
caller still receives the success payload and the store is unchanged. -/
theorem admit_error_policy_witness :
    (processTransaction
        ⟨none, fun d => Except.ok (d, "personal"), Except.ok "M2", 10, 100⟩
        [⟨1, "TRXW", "M1", "628@s.whatsapp.net", "personal", 1, 5, 1⟩]
        ⟨"628", "TRXW", "d", "i"⟩).result =
      Except.ok ⟨"TRXW", "628", "personal", "M2", 10⟩ ∧
    (processTransaction
        ⟨none, fun d => Except.ok (d, "personal"), Except.ok "M2", 10, 100⟩
        [⟨1, "TRXW", "M1", "628@s.whatsapp.net", "personal", 1, 5, 1⟩]
        ⟨"628", "TRXW", "d", "i"⟩).db =
      [⟨1, "TRXW", "M1", "628@s.whatsapp.net", "personal", 1, 5, 1⟩] :=
  have h := (admit_error_policy
      ⟨none, fun d => Except.ok (d, "personal"), Except.ok "M2", 10, 100⟩
      [⟨1, "TRXW", "M1", "628@s.whatsapp.net", "personal", 1, 5, 1⟩]
      ⟨"628", "TRXW", "d", "i"⟩).2.2 "628" "personal" "M2" rfl (by decide)
      rfl rfl
  ⟨h.1, h.2 (by decide)⟩

/-- Claim C3 (amended): once every stored record for a trxId has expired, a
new admit with that trxId passes the dedup check and returns success; but
the new tracking record only comes into existence when the expired row has
been physically purged — while a physical row with that trxId remains, the
Save is rejected by the schema's trx_id UNIQUE constraint (only logged), the
store is unchanged, and findActiveByTrxId still returns none. -/
theorem admit_after_expiry (env : ProcEnv) (db : Store) (req : TransactionRequest)
    (jid destType msgId : String)
    (hread : env.readErr = none)
    (hexp : ∀ r ∈ db, r.trxId = req.trxId → r.expiresAt ≤ env.now)
    (hval : env.validate req.destination = Except.ok (jid, destType))
    (hsend : env.send = Except.ok msgId) :
    (processTransaction env db req).result =
      Except.ok ⟨req.trxId, jid, destType, msgId, env.now⟩ ∧
    (db.any (fun x => x.trxId == req.trxId) = true →
      (processTransaction env db req).db = db ∧
      getByTrxID (processTransaction env db req).db req.trxId env.now = none) ∧
    (db.any (fun x => x.trxId == req.trxId) = false → 0 < env.ttl →
      getByTrxID (processTransaction env db req).db req.trxId env.now =
        some { id := db.length + 1, trxId := req.trxId, messageId := msgId,
               destination := jid, destinationType := destType,
               sentAt := env.now, expiresAt := env.now + env.ttl,
               createdAt := env.now }) := by
  have hget : getByTrxID db req.trxId env.now = none :=
    getByTrxID_none_of_expired db req.trxId env.now hexp
  refine ⟨?_, ?_, ?_⟩
  · cases hany : db.any (fun x => x.trxId == req.trxId) with
    | true => simp [processTransaction, save, hread, hget, hval, hsend, hany]
    | false => simp [processTransaction, save, hread, hget, hval, hsend, hany]
  · intro hany
    refine ⟨?_, ?_⟩
    · simp [processTransaction, save, hread, hget, hval, hsend, hany]
    · simp only [processTransaction, save, hread, hget, hval, hsend, hany]
      simpa using hget
  · intro hany httl
    have hall : ∀ r ∈ db,
        (fun r => r.trxId == req.trxId && activeAt r env.now) r = false := by
      intro r hr
      by_cases heq : r.trxId = req.trxId
      · have : ¬ env.now < r.expiresAt := Nat.not_lt.mpr (hexp r hr heq)
        simp [activeAt, heq, this]
      · simp [heq]
    have hnone : db.find?
        (fun r => r.trxId == req.trxId && activeAt r env.now) = none :=
      find?_false_of_all_false _ _ hall
    simp only [processTransaction, save, hread, hget, hval, hsend, hany]
    simp only [Bool.false_eq_true, if_neg, ite_false]
    unfold getByTrxID
    rw [find?_append_of_left_none _ _ _ hnone]
    simp [activeAt, httl]

/-- Witness for C3, spec scenario with both halves: at t=2 with TTL 1, the
expired TRX2 row still physically present forces the unchanged-store half;
on an already-purged store the new record becomes findable. -/
theorem admit_after_expiry_witness :
    ((processTransaction
        ⟨none, fun d => Except.ok (d, "personal"), Except.ok "M2", 2, 1⟩
        [⟨1, "TRX2", "M1", "628111@s.whatsapp.net", "personal", 0, 1, 0⟩]
        ⟨"628111", "TRX2", "d", "i"⟩).result =
      Except.ok ⟨"TRX2", "628111", "personal", "M2", 2⟩ ∧
    ((processTransaction
        ⟨none, fun d => Except.ok (d, "personal"), Except.ok "M2", 2, 1⟩
        [⟨1, "TRX2", "M1", "628111@s.whatsapp.net", "personal", 0, 1, 0⟩]
        ⟨"628111", "TRX2", "d", "i"⟩).db =
      [⟨1, "TRX2", "M1", "628111@s.whatsapp.net", "personal", 0, 1, 0⟩] ∧
      getByTrxID (processTransaction
        ⟨none, fun d => Except.ok (d, "personal"), Except.ok "M2", 2, 1⟩
        [⟨1, "TRX2", "M1", "628111@s.whatsapp.net", "personal", 0, 1, 0⟩]
        ⟨"628111", "TRX2", "d", "i"⟩).db "TRX2" 2 = none)) ∧
    getByTrxID (processTransaction
        ⟨none, fun d => Except.ok (d, "personal"), Except.ok "M2", 2, 1⟩
        [] ⟨"628111", "TRX2", "d", "i"⟩).db "TRX2" 2 =
      some ⟨1, "TRX2", "M2", "628111", "personal", 2, 3, 2⟩ := by
  have h1 := admit_after_expiry
      ⟨none, fun d => Except.ok (d, "personal"), Except.ok "M2", 2, 1⟩
      [⟨1, "TRX2", "M1", "628111@s.whatsapp.net", "personal", 0, 1, 0⟩]
      ⟨"628111", "TRX2", "d", "i"⟩ "628111" "personal" "M2" rfl
      (by decide) rfl rfl
  have h2 := admit_after_expiry
      ⟨none, fun d => Except.ok (d, "personal"), Except.ok "M2", 2, 1⟩
      [] ⟨"628111", "TRX2", "d", "i"⟩ "628111" "personal" "M2" rfl
      (by simp) rfl rfl
  exact ⟨⟨h1.1, h1.2.1 (by decide)⟩, h2.2.2 (by decide) (by decide)⟩

/-- Claim C3 counterexample, the spec's TTL=1 scenario run on the code: the
second admit of TRX2 at t=2 returns success, but because the expired row has
not been purged the Save hits the trx_id UNIQUE constraint, the store is
unchanged, and findActiveByTrxId immediately afterwards returns none rather
than the new record. -/
theorem admit_after_expiry_cex :
    (processTransaction
        ⟨none, fun d => Except.ok (d, "personal"), Except.ok "M1", 0, 1⟩
        [] ⟨"628111", "TRX2", "d", "i"⟩).db =
      [⟨1, "TRX2", "M1", "628111", "personal", 0, 1, 0⟩] ∧
    getByTrxID [⟨1, "TRX2", "M1", "628111", "personal", 0, 1, 0⟩]
      "TRX2" 2 = none ∧
    (processTransaction
        ⟨none, fun d => Except.ok (d, "personal"), Except.ok "M2", 2, 1⟩
        [⟨1, "TRX2", "M1", "628111", "personal", 0, 1, 0⟩]
        ⟨"628111", "TRX2", "d", "i"⟩).result =
      Except.ok ⟨"TRX2", "628111", "personal", "M2", 2⟩ ∧
    (processTransaction
        ⟨none, fun d => Except.ok (d, "personal"), Except.ok "M2", 2, 1⟩
        [⟨1, "TRX2", "M1", "628111", "personal", 0, 1, 0⟩]
        ⟨"628111", "TRX2", "d", "i"⟩).db =
      [⟨1, "TRX2", "M1", "628111", "personal", 0, 1, 0⟩] ∧
    getByTrxID (processTransaction
        ⟨none, fun d => Except.ok (d, "personal"), Except.ok "M2", 2, 1⟩
        [⟨1, "TRX2", "M1", "628111", "personal", 0, 1, 0⟩]
        ⟨"628111", "TRX2", "d", "i"⟩).db "TRX2" 2 = none := by
  refine ⟨by decide, by decide, by decide, by decide, by decide⟩

theorem find?_filter_of_impl {α} (p q : α → Bool) (l : List α)
    (h : ∀ x, q x = false → p x = false) :
    (l.filter q).find? p = l.find? p := by
  induction l with
  | nil => rfl
  | cons y t ih =>
    cases hq : q y with
    | true =>
      rw [List.filter_cons_of_pos hq]
      cases hp : p y with
      | true =>
        rw [List.find?_cons_of_pos _ hp, List.find?_cons_of_pos _ hp]
      | false =>
        rw [List.find?_cons_of_neg _ (by simp [hp]),
          List.find?_cons_of_neg _ (by simp [hp])]
        exact ih
    | false =>
      rw [List.filter_cons_of_neg (by simp [hq]),
        List.find?_cons_of_neg _ (by simp [h y hq])]
      exact ih

theorem filter_filter_of_impl {α} (p q : α → Bool) (l : List α)
    (h : ∀ x, p x = true → q x = true) :
    (l.filter q).filter p = l.filter p := by
  induction l with
  | nil => rfl
  | cons y t ih =>
    cases hp : p y with
    | true =>
      rw [List.filter_cons_of_pos (h y hp), List.filter_cons_of_pos hp,
        List.filter_cons_of_pos hp, ih]
    | false =>
      cases hq : q y with
      | true =>
        rw [List.filter_cons_of_pos hq, List.filter_cons_of_neg (by simp [hp]),
          List.filter_cons_of_neg (by simp [hp]), ih]
      | false =>
        rw [List.filter_cons_of_neg (by simp [hq]),
          List.filter_cons_of_neg (by simp [hp]), ih]

theorem foldMax_eq_some {l : List TransactionRecord}
    {acc : Option TransactionRecord} {r : TransactionRecord}
    (h : l.foldl
      (fun acc r => match acc with
        | none => some r
        | some b => if b.sentAt < r.sentAt then some r else some b) acc = some r) :
    acc = some r ∨ r ∈ l := by
  induction l generalizing acc with
  | nil => exact Or.inl h
  | cons y t ih =>
    simp only [List.foldl_cons] at h
    rcases ih h with hacc | hmem
    · cases acc with
      | none =>
        simp only [Option.some.injEq] at hacc
        exact Or.inr (by simp [hacc])
      | some b =>
        by_cases hlt : b.sentAt < y.sentAt
        · simp only [hlt, if_true, Option.some.injEq] at hacc
          exact Or.inr (by simp [hacc])
        · simp only [hlt, if_false, Option.some.injEq] at hacc
          exact Or.inl (by simp [hacc])
    · exact Or.inr (List.mem_cons_of_mem _ hmem)

theorem foldMax_ge {l : List TransactionRecord}
    {acc : Option TransactionRecord} {r : TransactionRecord}
    (h : l.foldl
      (fun acc r => match acc with
        | none => some r
        | some b => if b.sentAt < r.sentAt then some r else some b) acc = some r) :
    (∀ x ∈ l, x.sentAt ≤ r.sentAt) ∧
    (∀ b, acc = some b → b.sentAt ≤ r.sentAt) := by
  induction l generalizing acc with
  | nil =>
    refine ⟨by simp, fun b hb => ?_⟩
    rw [hb] at h
    simp only [List.foldl_nil, Option.some.injEq] at h
    exact h ▸ Nat.le_refl _
  | cons y t ih =>
    simp only [List.foldl_cons] at h
    obtain ⟨hall, hacc⟩ := ih h
    have hy : y.sentAt ≤ r.sentAt := by
      cases acc with
      | none => exact hacc y rfl
      | some b =>
        by_cases hlt : b.sentAt < y.sentAt
        · exact hacc y (by simp [hlt])
        · exact Nat.le_trans (Nat.le_of_not_lt hlt) (hacc b (by simp [hlt]))
    refine ⟨?_, ?_⟩
    · intro x hx
      rcases List.mem_cons.mp hx with hxy | hxt
      · exact hxy ▸ hy
      · exact hall x hxt
    · intro b hb
      subst hb
      by_cases hlt : b.sentAt < y.sentAt
      · exact Nat.le_trans (Nat.le_of_lt hlt) hy
      · exact hacc b (by simp [hlt])

theorem foldMax_isSome {l : List TransactionRecord}
    {acc : Option TransactionRecord}
    (h : l ≠ [] ∨ acc.isSome = true) :
    (l.foldl
      (fun acc r => match acc with
        | none => some r
        | some b => if b.sentAt < r.sentAt then some r else some b) acc).isSome
      = true := by
  induction l generalizing acc with
  | nil =>
    rcases h with h | h
    · exact absurd rfl h
    · exact h
  | cons y t ih =>
    simp only [List.foldl_cons]
    apply ih
    right
    cases acc with
    | none => rfl
    | some b =>
      by_cases hlt : b.sentAt < y.sentAt <;> simp [hlt]

theorem getByDestination_some_props {db : Store} {a : String} {t : Nat}
    {r : TransactionRecord} (h : getByDestination db a t = some r) :
    r ∈ db ∧ r.destination = a ∧ activeAt r t = true ∧
    ∀ x ∈ db, x.destination = a → activeAt x t = true → x.sentAt ≤ r.sentAt := by
  unfold getByDestination maxBySentAt at h
  have hmem : r ∈ db.filter (fun r => r.destination == a && activeAt r t) := by
    rcases foldMax_eq_some h with hacc | hmem
    · exact absurd hacc (by simp)
    · exact hmem
  have hprops := List.mem_filter.mp hmem
  have hdest : r.destination = a := by
    have := hprops.2
    simp only [Bool.and_eq_true, beq_iff_eq] at this
    exact this.1
  have hact : activeAt r t = true := by
    have := hprops.2
    simp only [Bool.and_eq_true] at this
    exact this.2
  refine ⟨hprops.1, hdest, hact, ?_⟩
  intro x hx hxd hxa
  exact (foldMax_ge h).1 x (List.mem_filter.mpr ⟨hx, by simp [hxd, hxa]⟩)

theorem getByDestination_isSome {db : Store} {a : String} {t : Nat}
    (h : ∃ r ∈ db, r.destination = a ∧ activeAt r t = true) :
    (getByDestination db a t).isSome = true := by
  obtain ⟨r, hr, hrd, hra⟩ := h
  unfold getByDestination maxBySentAt
  apply foldMax_isSome
  left
  exact List.ne_nil_of_mem (List.mem_filter.mpr ⟨hr, by simp [hrd, hra]⟩)

/-- Claim C2: all read paths filter on expiry at query time: a record with
expiresAt = sentAt + T is treated as active exactly at query times strictly
before sentAt + T; GetByTrxID and GetByDestination return only active
records and return a record iff an active match exists; Count counts exactly
the active rows; and all three queries are unaffected by a CleanupExpired
sweep run at any earlier-or-equal time — an expired record is invisible
whether or not the sweeper has physically deleted it. -/
theorem read_paths_filter_expiry (db : Store) (x a : String) (t ts T : Nat) :
    (∀ r : TransactionRecord, r.expiresAt = r.sentAt + T →
      (activeAt r t = true ↔ t < r.sentAt + T)) ∧
    (∀ r, getByTrxID db x t = some r → activeAt r t = true) ∧
    ((∃ r ∈ db, r.trxId = x ∧ activeAt r t = true) ↔
      (getByTrxID db x t).isSome = true) ∧
    (∀ r, getByDestination db a t = some r → activeAt r t = true) ∧
    ((∃ r ∈ db, r.destination = a ∧ activeAt r t = true) ↔
      (getByDestination db a t).isSome = true) ∧
    (countActive db t = (db.filter (fun r => decide (t < r.expiresAt))).length) ∧
    (ts ≤ t →
      getByTrxID (cleanupExpired db ts).1 x t = getByTrxID db x t ∧
      getByDestination (cleanupExpired db ts).1 a t = getByDestination db a t ∧
      countActive (cleanupExpired db ts).1 t = countActive db t) := by
  have hsurv : ∀ r : TransactionRecord, activeAt r t = true → ts ≤ t →
      (!(decide (r.expiresAt ≤ ts))) = true := by
    intro r hr hts
    have : t < r.expiresAt := by simpa [activeAt] using hr
    simp [Nat.not_le.mpr (Nat.lt_of_le_of_lt hts this)]
  refine ⟨?_, ?_, ?_, ?_, ?_, rfl, ?_⟩
  · intro r hT
    simp [activeAt, hT]
  · intro r h
    have := List.find?_some h
    simp only [Bool.and_eq_true] at this
    exact this.2
  · constructor
    · rintro ⟨r, hr, hrx, hra⟩
      unfold getByTrxID
      rw [List.find?_isSome]
      exact ⟨r, hr, by simp [hrx, hra]⟩
    · intro h
      obtain ⟨r, hr⟩ := Option.isSome_iff_exists.mp h
      have hmem := List.mem_of_find?_eq_some hr
      have hp := List.find?_some hr
      simp only [Bool.and_eq_true, beq_iff_eq] at hp
      exact ⟨r, hmem, hp.1, hp.2⟩
  · intro r h
    exact (getByDestination_some_props h).2.2.1
  · constructor
    · exact getByDestination_isSome
    · intro h
      obtain ⟨r, hr⟩ := Option.isSome_iff_exists.mp h
      have := getByDestination_some_props hr
      exact ⟨r, this.1, this.2.1, this.2.2.1⟩
  · intro hts
    refine ⟨?_, ?_, ?_⟩
    · unfold getByTrxID cleanupExpired
      apply find?_filter_of_impl
      intro r hq
      cases hp : (r.trxId == x && activeAt r t) with
      | false => rfl
      | true =>
        simp only [Bool.and_eq_true] at hp
        exact absurd (hsurv r hp.2 hts) (by simp [hq])
    · unfold getByDestination cleanupExpired
      congr 1
      apply filter_filter_of_impl
      intro r hp
      simp only [Bool.and_eq_true] at hp
      exact hsurv r hp.2 hts
    · unfold countActive cleanupExpired
      congr 1
      apply filter_filter_of_impl
      intro r hp
      exact hsurv r hp hts

/-- Witness for C2 on a two-row table: a record with TTL 4 created at time 3
is visible to all reads at t=5 and invisible at t=7, and the cleanup sweep
at ts=5 changes no read at t=5. -/
theorem read_paths_filter_expiry_witness :
    (activeAt ⟨1, "T1", "M1", "A", "personal", 3, 7, 3⟩ 5 = true ↔ 5 < 3 + 4) ∧
    ((∃ r ∈ ([⟨1, "T1", "M1", "A", "personal", 3, 7, 3⟩,
               ⟨2, "T2", "M2", "A", "personal", 1, 4, 1⟩] : Store),
        r.trxId = "T1" ∧ activeAt r 5 = true) ↔
      (getByTrxID [⟨1, "T1", "M1", "A", "personal", 3, 7, 3⟩,
                   ⟨2, "T2", "M2", "A", "personal", 1, 4, 1⟩] "T1" 5).isSome = true) ∧
    (getByTrxID (cleanupExpired [⟨1, "T1", "M1", "A", "personal", 3, 7, 3⟩,
                  ⟨2, "T2", "M2", "A", "personal", 1, 4, 1⟩] 5).1 "T1" 5 =
      getByTrxID [⟨1, "T1", "M1", "A", "personal", 3, 7, 3⟩,
                  ⟨2, "T2", "M2", "A", "personal", 1, 4, 1⟩] "T1" 5) ∧
    activeAt ⟨1, "T1", "M1", "A", "personal", 3, 7, 3⟩ 7 = false := by
  have h5 := read_paths_filter_expiry
    [⟨1, "T1", "M1", "A", "personal", 3, 7, 3⟩,
     ⟨2, "T2", "M2", "A", "personal", 1, 4, 1⟩] "T1" "A" 5 5 4
  exact ⟨h5.1 ⟨1, "T1", "M1", "A", "personal", 3, 7, 3⟩ (by decide), h5.2.2.1,
    (h5.2.2.2.2.2.2 (by decide)).1, by decide⟩

/-- Claim C4: an inbound event that passes the self-echo and whitelist
filters has its payload built from the active tracking record for the chat
address with maximal sentAt — whenever several records for that address are
simultaneously active, none more recent is passed over — and some payload is
produced exactly when such an active record exists. -/
theorem inbound_correlates_most_recent (whitelist : List String) (db : Store)
    (now : Nat) (evt : MessageEvent) :
    (∀ payload trxId,
      handleIncomingMessage whitelist db now evt = some (payload, trxId) →
      ∃ rec, getByDestination db evt.chat now = some rec ∧
        rec ∈ db ∧ rec.destination = evt.chat ∧ activeAt rec now = true ∧
        (∀ r ∈ db, r.destination = evt.chat → activeAt r now = true →
          r.sentAt ≤ rec.sentAt) ∧
        trxId = rec.trxId ∧
        payload.context.chatType = rec.destinationType ∧
        (payload.context.isReply = false →
          payload.context.originalMessageId = rec.messageId)) ∧
    (evt.isFromMe = false → whitelistAllows whitelist evt.chat = true →
      (∃ r ∈ db, r.destination = evt.chat ∧ activeAt r now = true) →
      (handleIncomingMessage whitelist db now evt).isSome = true) := by
  constructor
  · intro payload trxId h
    unfold handleIncomingMessage at h
    cases hme : evt.isFromMe with
    | true => rw [hme] at h; simp at h
    | false =>
      rw [hme] at h
      simp only [Bool.false_eq_true, if_false] at h
      cases hgate : (decide (whitelist.length > 0) && !(isWhitelisted whitelist evt.chat)) with
      | true => rw [hgate] at h; simp at h
      | false =>
        rw [hgate] at h
        simp only [Bool.false_eq_true, if_false] at h
        cases hgd : getByDestination db evt.chat now with
        | none => rw [hgd] at h; simp at h
        | some rec =>
          rw [hgd] at h
          obtain ⟨hmem, hdest, hact, hmax⟩ := getByDestination_some_props hgd
          refine ⟨rec, rfl, hmem, hdest, hact, hmax, ?_⟩
          cases hext : evt.extendedText with
          | none =>
            rw [hext] at h
            simp only [Option.some.injEq, Prod.mk.injEq] at h
            obtain ⟨hp, ht⟩ := h
            subst hp
            exact ⟨ht.symm, rfl, fun _ => rfl⟩
          | some ext =>
            rw [hext] at h
            simp only [Option.some.injEq, Prod.mk.injEq] at h
            obtain ⟨hp, ht⟩ := h
            subst hp
            refine ⟨ht.symm, ?_, ?_⟩
            · cases ext.contextInfo <;> rfl
            · cases ext.contextInfo with
              | none =>
                intro _
                rfl
              | some ci =>
                intro hfalse
                exact Bool.noConfusion hfalse
  · intro hme hwa hex
    unfold handleIncomingMessage
    rw [hme]
    simp only [Bool.false_eq_true, if_false]
    have hgate : (decide (whitelist.length > 0) && !(isWhitelisted whitelist evt.chat)) = false := by
      unfold whitelistAllows at hwa
      by_cases hl : whitelist.length > 0
      · rw [if_pos hl] at hwa
        simp [hwa]
      · simp [hl]
    rw [hgate]
    simp only [Bool.false_eq_true, if_false]
    obtain ⟨rec, hgd⟩ := Option.isSome_iff_exists.mp (getByDestination_isSome hex)
    rw [hgd]
    rfl

/-- Witness for C4: with an empty whitelist, a non-self message on chat "A"
correlates against a store holding two active records for "A" and produces a
payload. -/
theorem inbound_correlates_most_recent_witness :
    (handleIncomingMessage []
      [⟨1, "T1", "M1", "A", "personal", 1, 10, 1⟩,
       ⟨2, "T2", "M2", "A", "personal", 3, 10, 3⟩] 5
      ⟨false, "A", "628", "Bob", 5, some "hi", none⟩).isSome = true :=
  (inbound_correlates_most_recent []
    [⟨1, "T1", "M1", "A", "personal", 1, 10, 1⟩,
     ⟨2, "T2", "M2", "A", "personal", 3, 10, 3⟩] 5
    ⟨false, "A", "628", "Bob", 5, some "hi", none⟩).2 rfl rfl
    ⟨⟨2, "T2", "M2", "A", "personal", 3, 10, 3⟩, by decide, rfl, rfl⟩

theorem sendWebhookGo_step_none (o : Nat → Option String) (a rem : Nat)
    (le : Option String) (he : o a = none) :
    sendWebhookGo o a (rem + 1) le =
      (Except.ok (), if a > 0 then [(a + 1, 2 ^ (a - 1))] else [], 1) := by
  simp only [sendWebhookGo, he]

theorem sendWebhookGo_step_some (o : Nat → Option String) (a rem : Nat)
    (le : Option String) (e : String) (he : o a = some e) :
    sendWebhookGo o a (rem + 1) le =
      ((sendWebhookGo o (a + 1) rem (some e)).1,
       (if a > 0 then [(a + 1, 2 ^ (a - 1))] else []) ++
         (sendWebhookGo o (a + 1) rem (some e)).2.1,
       (sendWebhookGo o (a + 1) rem (some e)).2.2 + 1) := by
  simp only [sendWebhookGo, he]

theorem sendWebhookGo_spec (o : Nat → Option String) :
    ∀ (rem a : Nat) (le : Option String), 1 ≤ a →
      (sendWebhookGo o a rem le).2.2 ≤ rem ∧
      (sendWebhookGo o a rem le).2.1 =
        (List.range (sendWebhookGo o a rem le).2.2).map
          (fun j => (a + j + 1, 2 ^ (a + j - 1))) := by
  intro rem
  induction rem with
  | zero =>
    intro a le _
    exact ⟨Nat.le_refl 0, rfl⟩
  | succ r ih =>
    intro a le ha
    have hpos : a > 0 := ha
    cases h : o a with
    | none =>
      rw [sendWebhookGo_step_none o a r le h]
      refine ⟨by simp, ?_⟩
      simp [hpos, List.range_succ]
    | some e =>
      obtain ⟨ihle, ihsl⟩ := ih (a + 1) (some e) (by omega)
      rw [sendWebhookGo_step_some o a r le e h]
      refine ⟨Nat.succ_le_succ ihle, ?_⟩
      simp only [hpos, if_pos]
      rw [ihsl, List.range_succ_eq_map, List.map_cons, List.map_map]
      refine congrArg₂ List.cons (by simp) ?_
      apply List.map_congr_left
      intro j _
      have hj : a + 1 + j = a + (j + 1) := by omega
      simp only [Function.comp_apply, Nat.succ_eq_add_one, hj]

theorem sendWebhookGo_all_fail (o : Nat → Option String) :
    ∀ (rem a : Nat) (le : Option String),
      (∀ j, j < rem + 1 → (o (a + j)).isSome = true) →
      (sendWebhookGo o a (rem + 1) le).1 = Except.error (o (a + rem)) ∧
      (sendWebhookGo o a (rem + 1) le).2.2 = rem + 1 := by
  intro rem
  induction rem with
  | zero =>
    intro a le h
    obtain ⟨e, he⟩ := Option.isSome_iff_exists.mp (h 0 (by omega))
    rw [Nat.add_zero] at he
    rw [sendWebhookGo_step_some o a 0 le e he]
    exact ⟨by simp [sendWebhookGo, he], by simp [sendWebhookGo]⟩
  | succ r ih =>
    intro a le h
    obtain ⟨e, he⟩ := Option.isSome_iff_exists.mp (h 0 (by omega))
    rw [Nat.add_zero] at he
    have hrec := ih (a + 1) (some e) (fun j hj => by
      have := h (j + 1) (by omega)
      simpa [Nat.add_assoc, Nat.add_comm 1 j] using this)
    rw [sendWebhookGo_step_some o a (r + 1) le e he]
    refine ⟨?_, ?_⟩
    · rw [hrec.1]
      exact congrArg Except.error (congrArg o (by omega))
    · rw [hrec.2]

theorem sendWebhookGo_success (o : Nat → Option String) :
    ∀ (k rem a : Nat) (le : Option String), k < rem →
      (∀ j, j < k → (o (a + j)).isSome = true) → o (a + k) = none →
      (sendWebhookGo o a rem le).1 = Except.ok () ∧
      (sendWebhookGo o a rem le).2.2 = k + 1 := by
  intro k
  induction k with
  | zero =>
    intro rem a le hk _ hnone
    rw [Nat.add_zero] at hnone
    cases rem with
    | zero => omega
    | succ r =>
      rw [sendWebhookGo_step_none o a r le hnone]
      exact ⟨rfl, rfl⟩
  | succ n ih =>
    intro rem a le hk hfail hnone
    obtain ⟨e, he⟩ := Option.isSome_iff_exists.mp (hfail 0 (by omega))
    rw [Nat.add_zero] at he
    cases rem with
    | zero => omega
    | succ r =>
      have hrec := ih r (a + 1) (some e) (by omega)
        (fun j hj => by
          have := hfail (j + 1) (by omega)
          simpa [Nat.add_assoc, Nat.add_comm 1 j] using this)
        (by
          have heq : a + 1 + n = a + (n + 1) := by omega
          rw [heq]
          exact hnone)
      rw [sendWebhookGo_step_some o a r le e he]
      exact ⟨hrec.1, by rw [hrec.2]⟩

/-- Claim C6: SendWebhook with configured retry count R performs at most
R + 1 attempts; the sleeps performed are exactly one per retry, the one
before 1-based attempt i + 1 lasting 2^(i-1) seconds; if every attempt
fails, the call returns the DeliveryFailed error naming R + 1 attempts and
carrying the last underlying error; and a first success at 0-based attempt
k stops the loop after k + 1 attempts. -/
theorem webhook_retry_backoff (R : Nat) (o : Nat → Option String) :
    ((sendWebhook R o).2.2 ≤ R + 1) ∧
    ((sendWebhook R o).2.1 =
      (List.range ((sendWebhook R o).2.2 - 1)).map (fun i => (i + 2, 2 ^ i))) ∧
    ((∀ a, a ≤ R → (o a).isSome = true) →
      (sendWebhook R o).1 = WebhookResult.deliveryFailed (R + 1) (o R) ∧
      (sendWebhook R o).2.2 = R + 1) ∧
    (∀ k, k ≤ R → (∀ j, j < k → (o j).isSome = true) → o k = none →
      (sendWebhook R o).1 = WebhookResult.delivered ∧
      (sendWebhook R o).2.2 = k + 1) := by
  refine ⟨?_, ?_, ?_, ?_⟩
  · show (sendWebhookGo o 0 (R + 1) none).2.2 ≤ R + 1
    cases h : o 0 with
    | none =>
      rw [sendWebhookGo_step_none o 0 R none h]
      simp
    | some e =>
      rw [sendWebhookGo_step_some o 0 R none e h]
      exact Nat.succ_le_succ (sendWebhookGo_spec o R 1 (some e) (by omega)).1
  · show (sendWebhookGo o 0 (R + 1) none).2.1 =
      (List.range ((sendWebhookGo o 0 (R + 1) none).2.2 - 1)).map
        (fun i => (i + 2, 2 ^ i))
    cases h : o 0 with
    | none =>
      rw [sendWebhookGo_step_none o 0 R none h]
      simp
    | some e =>
      have hs := (sendWebhookGo_spec o R 1 (some e) (by omega)).2
      rw [sendWebhookGo_step_some o 0 R none e h]
      simp only [gt_iff_lt, Nat.lt_irrefl, if_false, List.nil_append,
        Nat.add_sub_cancel]
      rw [hs]
      apply List.map_congr_left
      intro j _
      refine congrArg₂ Prod.mk (by omega) (congrArg _ (by omega))
  · intro hfail
    have h := sendWebhookGo_all_fail o R 0 none (fun j hj => by
      simpa using hfail j (by omega))
    have h1 : (sendWebhookGo o 0 (R + 1) none).1 = Except.error (o R) := by
      simpa using h.1
    constructor
    · show (match (sendWebhookGo o 0 (R + 1) none).1 with
        | Except.ok _ => WebhookResult.delivered
        | Except.error le => WebhookResult.deliveryFailed (R + 1) le) = _
      rw [h1]
    · exact h.2
  · intro k hk hfail hnone
    have h := sendWebhookGo_success o k (R + 1) 0 none (by omega)
      (fun j hj => by simpa using hfail j hj) (by simpa using hnone)
    constructor
    · show (match (sendWebhookGo o 0 (R + 1) none).1 with
        | Except.ok _ => WebhookResult.delivered
        | Except.error le => WebhookResult.deliveryFailed (R + 1) le) = _
      rw [h.1]
    · exact h.2

/-- Witness for C6 with the default retry count 3 and an endpoint that
always fails: 4 attempts, backoffs of 1, 2 and 4 seconds before attempts 2,
3 and 4, and the final error carries the last underlying failure. -/
theorem webhook_retry_backoff_witness :
    (sendWebhook 3 (fun _ => some "boom")).1 =
      WebhookResult.deliveryFailed 4 (some "boom") ∧
    (sendWebhook 3 (fun _ => some "boom")).2.2 = 4 ∧
    (sendWebhook 3 (fun _ => some "boom")).2.1 = [(2, 1), (3, 2), (4, 4)] :=
  have h := (webhook_retry_backoff 3 (fun _ => some "boom")).2.2.1
    (fun a _ => rfl)
  ⟨h.1, h.2, by decide⟩

theorem recCount_append (t : String) (db : Store) (r : TransactionRecord) :
    recCount t (db ++ [r]) = recCount t db + (if r.trxId == t then 1 else 0) := by
  unfold recCount
  rw [List.filter_append, List.length_append]
  cases h : (r.trxId == t) <;> simp [List.filter_cons, h]

theorem recCount_pos_of_any (t : String) (db : Store)
    (h : db.any (fun x => x.trxId == t) = true) : 1 ≤ recCount t db := by
  obtain ⟨x, hx, hxt⟩ := List.any_eq_true.mp h
  unfold recCount
  exact List.length_pos.mpr
    (List.ne_nil_of_mem (List.mem_filter.mpr ⟨hx, hxt⟩))

theorem recCount_zero_of_not_any (t : String) (db : Store)
    (h : db.any (fun x => x.trxId == t) = false) : recCount t db = 0 := by
  unfold recCount
  rw [List.length_eq_zero, List.filter_eq_nil_iff]
  intro a ha
  exact (List.any_eq_false.mp h) a ha

theorem recCount_pos_of_get (trxId : String) (db : Store) (now : Nat)
    (ex : TransactionRecord) (h : getByTrxID db trxId now = some ex) :
    1 ≤ recCount trxId db := by
  have hmem := List.mem_of_find?_eq_some h
  have hp := List.find?_some h
  simp only [Bool.and_eq_true] at hp
  exact recCount_pos_of_any trxId db (List.any_eq_true.mpr ⟨ex, hmem, hp.1⟩)

theorem admitStep_inv_left (trxId jid destType handle : String) (now ttl : Nat)
    (db : Store) (p other : ProcPhase)
    (hsum : recCount trxId db =
      (if phaseSaved p = true then 1 else 0) +
      (if phaseSaved other = true then 1 else 0))
    (hle : recCount trxId db ≤ 1)
    (hdp : phaseDup p = true ∨ phaseSuccessUnsaved p = true →
      1 ≤ recCount trxId db)
    (hdo : phaseDup other = true ∨ phaseSuccessUnsaved other = true →
      1 ≤ recCount trxId db) :
    recCount trxId (admitStep trxId jid destType handle now ttl db p).1 =
      (if phaseSaved (admitStep trxId jid destType handle now ttl db p).2 = true
        then 1 else 0) +
      (if phaseSaved other = true then 1 else 0) ∧
    recCount trxId (admitStep trxId jid destType handle now ttl db p).1 ≤ 1 ∧
    (phaseDup (admitStep trxId jid destType handle now ttl db p).2 = true ∨
      phaseSuccessUnsaved (admitStep trxId jid destType handle now ttl db p).2 = true →
      1 ≤ recCount trxId (admitStep trxId jid destType handle now ttl db p).1) ∧
    (phaseDup other = true ∨ phaseSuccessUnsaved other = true →
      1 ≤ recCount trxId (admitStep trxId jid destType handle now ttl db p).1) := by
  cases p with
  | ready =>
    cases hg : getByTrxID db trxId now with
    | some ex =>
      simp only [admitStep, hg]
      refine ⟨?_, hle, ?_, hdo⟩
      · simpa [phaseSaved] using hsum
      · intro _
        exact recCount_pos_of_get trxId db now ex hg
    | none =>
      simp only [admitStep, hg]
      refine ⟨?_, hle, ?_, hdo⟩
      · simpa [phaseSaved] using hsum
      · intro h
        simp [phaseDup, phaseSuccessUnsaved] at h
  | passedCheck =>
    cases hany : db.any (fun x => x.trxId == trxId) with
    | true =>
      simp only [admitStep, save, hany, if_pos]
      refine ⟨?_, hle, ?_, hdo⟩
      · simpa [phaseSaved] using hsum
      · intro _
        exact recCount_pos_of_any trxId db hany
    | false =>
      have hzero := recCount_zero_of_not_any trxId db hany
      have hcnt : recCount trxId
          (db ++ [{ (⟨0, trxId, handle, jid, destType, now, now + ttl, 0⟩ :
            TransactionRecord) with id := db.length + 1, createdAt := now }]) = 1 := by
        rw [recCount_append, hzero]
        simp
      simp only [admitStep, save, hany, Bool.false_eq_true, if_neg, ite_false]
      refine ⟨?_, ?_, ?_, ?_⟩
      · have hother : phaseSaved other = false := by
          rw [hzero] at hsum
          cases ho : phaseSaved other with
          | false => rfl
          | true =>
            rw [ho] at hsum
            simp [phaseSaved] at hsum
        rw [hcnt, hother]
        simp [phaseSaved]
      · rw [hcnt]
      · intro _
        rw [hcnt]
      · intro _
        rw [hcnt]
  | finished r =>
    simp only [admitStep]
    exact ⟨hsum, hle, hdp, hdo⟩

theorem raceStep_inv (trxId jid destType h1 h2 : String) (now ttl : Nat)
    (s : RaceState) (w : Bool) (hinv : raceInv trxId s) :
    raceInv trxId (raceStep trxId jid destType h1 h2 now ttl s w) := by
  obtain ⟨hsum, hle, hd1, hd2⟩ := hinv
  cases w with
  | true =>
    have h := admitStep_inv_left trxId jid destType h1 now ttl s.db s.p1 s.p2
      hsum hle hd1 hd2
    exact ⟨h.1, h.2.1, h.2.2.1, h.2.2.2⟩
  | false =>
    have h := admitStep_inv_left trxId jid destType h2 now ttl s.db s.p2 s.p1
      (hsum.trans (Nat.add_comm _ _)) hle hd2 hd1
    exact ⟨h.1.trans (Nat.add_comm _ _), h.2.1, h.2.2.2, h.2.2.1⟩

theorem raceExec_inv (trxId jid destType h1 h2 : String) (now ttl : Nat)
    (sched : List Bool) (s : RaceState) (hinv : raceInv trxId s) :
    raceInv trxId (raceExec trxId jid destType h1 h2 now ttl sched s) := by
  induction sched generalizing s with
  | nil => exact hinv
  | cons w t ih =>
    exact ih _ (raceStep_inv trxId jid destType h1 h2 now ttl s w hinv)

theorem phase_classify (p : ProcPhase) (h : phaseFinished p = true) :
    phaseSaved p = true ∨ phaseDup p = true ∨ phaseSuccessUnsaved p = true := by
  cases p with
  | ready => simp [phaseFinished] at h
  | passedCheck => simp [phaseFinished] at h
  | finished r =>
    cases r with
    | success saved handle =>
      cases saved with
      | true => exact Or.inl rfl
      | false => exact Or.inr (Or.inr rfl)
    | duplicate t => exact Or.inr (Or.inl rfl)

/-- Claim C8 (amended): for any interleaving of two concurrent admits with
the same trxId against an initially empty store, both of which finish:
exactly one row for the trxId exists afterwards and exactly one call's Save
succeeds — the store's trx_id unique constraint is atomic — but the losing
call either receives the duplicate error (its dedup read ran after the
winner's insert) or, because the check-then-act spans two store calls,
passes the check too and returns success to its caller with its Save
rejected and only logged. -/
theorem race_exactly_one_save (trxId jid destType h1 h2 : String) (now ttl : Nat)
    (sched : List Bool)
    (hfin1 : phaseFinished (raceExec trxId jid destType h1 h2 now ttl sched
        ⟨[], ProcPhase.ready, ProcPhase.ready⟩).p1 = true)
    (hfin2 : phaseFinished (raceExec trxId jid destType h1 h2 now ttl sched
        ⟨[], ProcPhase.ready, ProcPhase.ready⟩).p2 = true) :
    recCount trxId (raceExec trxId jid destType h1 h2 now ttl sched
        ⟨[], ProcPhase.ready, ProcPhase.ready⟩).db = 1 ∧
    ((phaseSaved (raceExec trxId jid destType h1 h2 now ttl sched
        ⟨[], ProcPhase.ready, ProcPhase.ready⟩).p1 = true ∧
      phaseSaved (raceExec trxId jid destType h1 h2 now ttl sched
        ⟨[], ProcPhase.ready, ProcPhase.ready⟩).p2 = false) ∨
     (phaseSaved (raceExec trxId jid destType h1 h2 now ttl sched
        ⟨[], ProcPhase.ready, ProcPhase.ready⟩).p1 = false ∧
      phaseSaved (raceExec trxId jid destType h1 h2 now ttl sched
        ⟨[], ProcPhase.ready, ProcPhase.ready⟩).p2 = true)) ∧
    (phaseSaved (raceExec trxId jid destType h1 h2 now ttl sched
        ⟨[], ProcPhase.ready, ProcPhase.ready⟩).p1 = false →
      phaseDup (raceExec trxId jid destType h1 h2 now ttl sched
        ⟨[], ProcPhase.ready, ProcPhase.ready⟩).p1 = true ∨
      phaseSuccessUnsaved (raceExec trxId jid destType h1 h2 now ttl sched
        ⟨[], ProcPhase.ready, ProcPhase.ready⟩).p1 = true) ∧
    (phaseSaved (raceExec trxId jid destType h1 h2 now ttl sched
        ⟨[], ProcPhase.ready, ProcPhase.ready⟩).p2 = false →
      phaseDup (raceExec trxId jid destType h1 h2 now ttl sched
        ⟨[], ProcPhase.ready, ProcPhase.ready⟩).p2 = true ∨
      phaseSuccessUnsaved (raceExec trxId jid destType h1 h2 now ttl sched
        ⟨[], ProcPhase.ready, ProcPhase.ready⟩).p2 = true) := by
  have hinit : raceInv trxId ⟨[], ProcPhase.ready, ProcPhase.ready⟩ := by
    refine ⟨by simp [recCount, phaseSaved], by simp [recCount], ?_, ?_⟩ <;>
      · intro h
        simp [phaseDup, phaseSuccessUnsaved] at h
  obtain ⟨hsum, hle, hd1, hd2⟩ :=
    raceExec_inv trxId jid destType h1 h2 now ttl sched _ hinit
  have hcl1 := phase_classify _ hfin1
  have hcl2 := phase_classify _ hfin2
  cases hs1 : phaseSaved (raceExec trxId jid destType h1 h2 now ttl sched
      ⟨[], ProcPhase.ready, ProcPhase.ready⟩).p1 with
  | true =>
    cases hs2 : phaseSaved (raceExec trxId jid destType h1 h2 now ttl sched
        ⟨[], ProcPhase.ready, ProcPhase.ready⟩).p2 with
    | true =>
      rw [hs1, hs2] at hsum
      simp at hsum
      omega
    | false =>
      rw [hs1, hs2] at hsum
      simp at hsum
      refine ⟨hsum, Or.inl ⟨rfl, rfl⟩, ?_, ?_⟩
      · intro hc
        exact Bool.noConfusion hc
      · intro _
        rcases hcl2 with h | h
        · rw [hs2] at h
          cases h
        · exact h
  | false =>
    cases hs2 : phaseSaved (raceExec trxId jid destType h1 h2 now ttl sched
        ⟨[], ProcPhase.ready, ProcPhase.ready⟩).p2 with
    | true =>
      rw [hs1, hs2] at hsum
      simp at hsum
      refine ⟨hsum, Or.inr ⟨rfl, rfl⟩, ?_, ?_⟩
      · intro _
        rcases hcl1 with h | h
        · rw [hs1] at h
          cases h
        · exact h
      · intro hc
        exact Bool.noConfusion hc
    | false =>
      rw [hs1, hs2] at hsum
      simp at hsum
      have hpos : 1 ≤ recCount trxId (raceExec trxId jid destType h1 h2 now ttl
          sched ⟨[], ProcPhase.ready, ProcPhase.ready⟩).db := by
        rcases hcl1 with h | h
        · rw [hs1] at h
          cases h
        · exact hd1 h
      omega

/-- Witness for C8 at the interleaving where both calls pass the dedup check
before either saves. -/
theorem race_exactly_one_save_witness :
    recCount "TRX1" (raceExec "TRX1" "J" "personal" "M1" "M2" 0 10
        [true, false, true, false] ⟨[], ProcPhase.ready, ProcPhase.ready⟩).db = 1 ∧
    ((phaseSaved (raceExec "TRX1" "J" "personal" "M1" "M2" 0 10
        [true, false, true, false] ⟨[], ProcPhase.ready, ProcPhase.ready⟩).p1 = true ∧
      phaseSaved (raceExec "TRX1" "J" "personal" "M1" "M2" 0 10
        [true, false, true, false] ⟨[], ProcPhase.ready, ProcPhase.ready⟩).p2 = false) ∨
     (phaseSaved (raceExec "TRX1" "J" "personal" "M1" "M2" 0 10
        [true, false, true, false] ⟨[], ProcPhase.ready, ProcPhase.ready⟩).p1 = false ∧
      phaseSaved (raceExec "TRX1" "J" "personal" "M1" "M2" 0 10
        [true, false, true, false] ⟨[], ProcPhase.ready, ProcPhase.ready⟩).p2 = true)) ∧
    (phaseSaved (raceExec "TRX1" "J" "personal" "M1" "M2" 0 10
        [true, false, true, false] ⟨[], ProcPhase.ready, ProcPhase.ready⟩).p1 = false →
      phaseDup (raceExec "TRX1" "J" "personal" "M1" "M2" 0 10
        [true, false, true, false] ⟨[], ProcPhase.ready, ProcPhase.ready⟩).p1 = true ∨
      phaseSuccessUnsaved (raceExec "TRX1" "J" "personal" "M1" "M2" 0 10
        [true, false, true, false] ⟨[], ProcPhase.ready, ProcPhase.ready⟩).p1 = true) ∧
    (phaseSaved (raceExec "TRX1" "J" "personal" "M1" "M2" 0 10
        [true, false, true, false] ⟨[], ProcPhase.ready, ProcPhase.ready⟩).p2 = false →
      phaseDup (raceExec "TRX1" "J" "personal" "M1" "M2" 0 10
        [true, false, true, false] ⟨[], ProcPhase.ready, ProcPhase.ready⟩).p2 = true ∨
      phaseSuccessUnsaved (raceExec "TRX1" "J" "personal" "M1" "M2" 0 10
        [true, false, true, false] ⟨[], ProcPhase.ready, ProcPhase.ready⟩).p2 = true) :=
  race_exactly_one_save "TRX1" "J" "personal" "M1" "M2" 0 10
    [true, false, true, false] (by decide) (by decide)

/-- Claim C8 counterexample: under the interleaving check-1, check-2,
save-1, save-2 both calls pass the dedup check, call 1 finishes success with
its row saved, and call 2 also finishes success — returning success to its
caller, not a DuplicateTransaction error — while its Save was rejected; only
one row exists. -/
theorem race_both_success_cex :
    (raceExec "TRX1" "J" "personal" "M1" "M2" 0 10 [true, false, true, false]
      ⟨[], ProcPhase.ready, ProcPhase.ready⟩).p1 =
        ProcPhase.finished (AdmitRes.success true "M1") ∧
    (raceExec "TRX1" "J" "personal" "M1" "M2" 0 10 [true, false, true, false]
      ⟨[], ProcPhase.ready, ProcPhase.ready⟩).p2 =
        ProcPhase.finished (AdmitRes.success false "M2") ∧
    recCount "TRX1" (raceExec "TRX1" "J" "personal" "M1" "M2" 0 10
      [true, false, true, false] ⟨[], ProcPhase.ready, ProcPhase.ready⟩).db = 1 := by
  refine ⟨by decide, by decide, by decide⟩

/-- Claim C9 (amended): a request with a missing field is rejected 400 with
ERR_MISSING_PARAMETER before the core runs; a request whose descriptions or
instructions exceeds 4096 bytes is rejected 400 with ERR_INVALID_PARAMETER;
a well-formed request then passes a handler-level duplicate pre-check — a
still-tracked trxID is rejected 409 with ERR_DUPLICATE_TRANSACTION without
invoking the core — and only otherwise reaches ProcessTransaction. -/
theorem forward_validation (destination trxID descriptions instructions : String)
    (tracker : List TrackingInfo) (now : Nat) :
    ((destination = "" ∨ trxID = "" ∨ descriptions = "" ∨ instructions = "") →
      forwardTransaction destination trxID descriptions instructions tracker now =
        ForwardOutcome.rejected "ERR_MISSING_PARAMETER" 400) ∧
    (destination ≠ "" → trxID ≠ "" → descriptions ≠ "" → instructions ≠ "" →
      (descriptions.utf8ByteSize > 4096 ∨ instructions.utf8ByteSize > 4096) →
      forwardTransaction destination trxID descriptions instructions tracker now =
        ForwardOutcome.rejected "ERR_INVALID_PARAMETER" 400) ∧
    (destination ≠ "" → trxID ≠ "" → descriptions ≠ "" → instructions ≠ "" →
      descriptions.utf8ByteSize ≤ 4096 → instructions.utf8ByteSize ≤ 4096 →
      ((∀ info, trackerGetByTrxID tracker trxID now = some info →
        forwardTransaction destination trxID descriptions instructions tracker now =
          ForwardOutcome.rejected "ERR_DUPLICATE_TRANSACTION" 409) ∧
       (trackerGetByTrxID tracker trxID now = none →
        forwardTransaction destination trxID descriptions instructions tracker now =
          ForwardOutcome.toCore ⟨destination, trxID, descriptions, instructions⟩))) := by
  refine ⟨?_, ?_, ?_⟩
  · intro h
    rcases h with h | h | h | h <;> simp [forwardTransaction, h]
  · intro h1 h2 h3 h4 hlen
    have e1 : (destination == "") = false := beq_eq_false_iff_ne.mpr h1
    have e2 : (trxID == "") = false := beq_eq_false_iff_ne.mpr h2
    have e3 : (descriptions == "") = false := beq_eq_false_iff_ne.mpr h3
    have e4 : (instructions == "") = false := beq_eq_false_iff_ne.mpr h4
    rcases hlen with h | h <;>
      simp [forwardTransaction, e1, e2, e3, e4, h]
  · intro h1 h2 h3 h4 hl1 hl2
    have e1 : (destination == "") = false := beq_eq_false_iff_ne.mpr h1
    have e2 : (trxID == "") = false := beq_eq_false_iff_ne.mpr h2
    have e3 : (descriptions == "") = false := beq_eq_false_iff_ne.mpr h3
    have e4 : (instructions == "") = false := beq_eq_false_iff_ne.mpr h4
    have d1 : ¬ descriptions.utf8ByteSize > 4096 := Nat.not_lt.mpr hl1
    have d2 : ¬ instructions.utf8ByteSize > 4096 := Nat.not_lt.mpr hl2
    constructor
    · intro info hdup
      simp [forwardTransaction, e1, e2, e3, e4, d1, d2, hdup]
    · intro hnone
      simp [forwardTransaction, e1, e2, e3, e4, d1, d2, hnone]

/-- Claim C9 counterexample: a request whose four fields are all present and
within the 4096 bound is nevertheless rejected 409 by the handler's
duplicate pre-check while its trxID is still tracked, so it is not passed
through to the core ProcessTransaction. -/
theorem forward_dup_precheck_cex :
    forwardTransaction "628111" "TRX9" "d" "i"
        [⟨"M1", "TRX9", "X", "personal", 0, 10⟩] 5 =
      ForwardOutcome.rejected "ERR_DUPLICATE_TRANSACTION" 409 ∧
    forwardTransaction "628111" "TRX9" "d" "i"
        [⟨"M1", "TRX9", "X", "personal", 0, 10⟩] 5 ≠
      ForwardOutcome.toCore ⟨"628111", "TRX9", "d", "i"⟩ := by
  refine ⟨by decide, by decide⟩

/-- Witness for C9: a well-formed request with an untracked trxID is passed
through to the core with exactly the parsed fields, and with a tracked one
it is rejected 409. -/
theorem forward_validation_witness :
    forwardTransaction "628111" "TRX8" "d" "i" [] 0 =
      ForwardOutcome.toCore ⟨"628111", "TRX8", "d", "i"⟩ :=
  ((forward_validation "628111" "TRX8" "d" "i" [] 0).2.2 (by decide) (by decide)
    (by decide) (by decide) (by decide) (by decide)).2 rfl

theorem dropWhile_mem {α} (p : α → Bool) (l : List α) (x : α)
    (h : x ∈ l.dropWhile p) : x ∈ l := by
  induction l with
  | nil => simp at h
  | cons y t ih =>
    rw [List.dropWhile_cons] at h
    by_cases hp : p y = true
    · rw [if_pos hp] at h
      exact List.mem_cons_of_mem _ (ih h)
    · rw [if_neg hp] at h
      exact h

theorem ensure62_leads (p : List Char) : leadsWith62 (ensure62 p) = true := by
  unfold ensure62
  by_cases h : leadsWith62 p = true
  · rw [if_pos h]
    exact h
  · rw [if_neg h]
    rfl

theorem ensure62_digits (p : List Char) (h : ∀ c ∈ p, c.isDigit = true) :
    ∀ c ∈ ensure62 p, c.isDigit = true := by
  unfold ensure62
  by_cases h62 : leadsWith62 p = true
  · rw [if_pos h62]
    exact h
  · rw [if_neg h62]
    intro c hc
    rcases List.mem_cons.mp hc with rfl | hc
    · decide
    rcases List.mem_cons.mp hc with rfl | hc
    · decide
    exact h c hc

theorem lengthGate_spec (p : List Char) :
    lengthGate p = [] ∨
    (lengthGate p = p ∧ 11 ≤ p.length ∧ p.length ≤ 15) := by
  unfold lengthGate
  by_cases h : (decide (p.length < 11) || decide (p.length > 15)) = true
  · rw [if_pos h]
    exact Or.inl rfl
  · rw [if_neg h]
    simp only [Bool.or_eq_true, decide_eq_true_eq, not_or, Nat.not_lt] at h
    exact Or.inr ⟨rfl, h.1, Nat.not_lt.mp (fun hc => absurd hc (Nat.not_lt.mpr h.2))⟩

/-- Claim C10: for a destination without "@g.us", the code first normalizes
(keep digits, strip leading zeros, prepend 62 when absent), accepts only a
normalized form of 11..15 digits — every nonempty normalized form is all
digits, starts with 62, and has length between 11 and 15 — a successful
personal validation returns exactly that form as the JID user part, and an
input normalizing out of range is rejected as an invalid phone number. -/
theorem validate_personal_normalization (env : WAEnv) (destination : String)
    (hng : hasGUs destination = false) :
    (normalizePhoneChars destination.toList ≠ [] →
      (∀ c ∈ normalizePhoneChars destination.toList, c.isDigit = true) ∧
      leadsWith62 (normalizePhoneChars destination.toList) = true ∧
      11 ≤ (normalizePhoneChars destination.toList).length ∧
      (normalizePhoneChars destination.toList).length ≤ 15) ∧
    (∀ jid ty, validateDestination env destination = Except.ok (jid, ty) →
      ty = "personal" ∧ normalizePhoneChars destination.toList ≠ [] ∧
      jid = String.mk (normalizePhoneChars destination.toList) ++
        "@s.whatsapp.net") ∧
    (normalizePhoneChars destination.toList = [] →
      validateDestination env destination =
        Except.error "invalid phone number format") := by
  have hdig : ∀ c ∈ dropZeros (digitsOf destination.toList), c.isDigit = true := by
    intro c hc
    exact (List.mem_filter.mp (dropWhile_mem _ _ _ hc)).2
  refine ⟨?_, ?_, ?_⟩
  · intro hne
    rcases lengthGate_spec (ensure62 (dropZeros (digitsOf destination.toList)))
      with h | ⟨heq, hlo, hhi⟩
    · exact absurd h hne
    · unfold normalizePhoneChars
      rw [heq]
      exact ⟨ensure62_digits _ hdig, ensure62_leads _, hlo, hhi⟩
  · intro jid ty hok
    unfold validateDestination at hok
    rw [hng] at hok
    simp only [Bool.false_eq_true, if_false] at hok
    by_cases hemp : (normalizePhoneNumber destination == "") = true
    · rw [if_pos hemp] at hok
      cases hok
    · rw [if_neg hemp] at hok
      have hne : normalizePhoneChars destination.toList ≠ [] := by
        intro hnil
        apply hemp
        unfold normalizePhoneNumber
        rw [hnil]
        rfl
      cases hwa : env.isOnWhatsApp (normalizePhoneNumber destination) with
      | error m =>
        rw [hwa] at hok
        cases hok
      | ok b =>
        rw [hwa] at hok
        cases b with
        | false => cases hok
        | true =>
          simp only [Except.ok.injEq, Prod.mk.injEq] at hok
          exact ⟨hok.2.symm, hne, hok.1.symm⟩
  · intro hnil
    unfold validateDestination
    rw [hng]
    simp only [Bool.false_eq_true, if_false]
    have hemp : (normalizePhoneNumber destination == "") = true := by
      unfold normalizePhoneNumber
      rw [hnil]
      rfl
    rw [if_pos hemp]

/-- Witness for C10 on destination "08123456789": strip the leading zero,
prepend 62, land on 12 digits beginning with 62, and pass validation as a
personal JID. -/
theorem validate_personal_normalization_witness :
    leadsWith62 (normalizePhoneChars "08123456789".toList) = true ∧
    11 ≤ (normalizePhoneChars "08123456789".toList).length ∧
    (normalizePhoneChars "08123456789".toList).length ≤ 15 ∧
    ("628123456789@s.whatsapp.net" : String) =
      String.mk (normalizePhoneChars "08123456789".toList) ++
        "@s.whatsapp.net" :=
  have h := validate_personal_normalization
    ⟨fun _ => none, fun _ => false, fun _ => Except.ok true⟩ "08123456789"
    (by decide)
  have h1 := h.1 (by decide)
  have h2 := (h.2.1 "628123456789@s.whatsapp.net" "personal" (by decide)).2.2
  ⟨h1.2.1, h1.2.2.1, h1.2.2.2, h2⟩

/-- Claim C7: with an empty configured whitelist every inbound chat address is
allowed (default-open); with a non-empty whitelist an address is allowed iff
it exactly matches some configured entry. -/
theorem whitelist_default_open_exact_match (whitelist : List String) (jid : String) :
    (whitelist = [] → whitelistAllows whitelist jid = true) ∧
    (whitelist ≠ [] → (whitelistAllows whitelist jid = true ↔ jid ∈ whitelist)) := by
  constructor
  · intro h
    subst h
    rfl
  · intro h
    unfold whitelistAllows isWhitelisted
    have hlen : whitelist.length > 0 := List.length_pos.mpr h
    simp only [hlen, if_pos, List.any_eq_true, beq_iff_eq]
    constructor
    · rintro ⟨w, hw, hww⟩
      exact hww ▸ hw
    · intro hmem
      exact ⟨jid, hmem, rfl⟩

/-- Witness for C7 at concrete inputs: the empty whitelist admits "x@g.us",
and the whitelist ["a@s.whatsapp.net"] admits exactly its member. -/
theorem whitelist_default_open_exact_match_witness :
    whitelistAllows [] "x@g.us" = true ∧
    (whitelistAllows ["a@s.whatsapp.net"] "a@s.whatsapp.net" = true ↔
      ("a@s.whatsapp.net" : String) ∈ ["a@s.whatsapp.net"]) := by
  refine ⟨(whitelist_default_open_exact_match [] "x@g.us").1 rfl, ?_⟩
  exact (whitelist_default_open_exact_match ["a@s.whatsapp.net"] "a@s.whatsapp.net").2
    (by decide)

end H2H
